import Mathlib

/-!
Verification development for the `ptwXY` integration module
(`src/numericalFunctions/ptwXY/Src/ptwXY_integration.c`).

Doubles are modelled as exact rationals.  The transcendental library
functions the C code calls (`log`, `exp`, `pow`, `sqrt`) are bundled in a
`MathFns` parameter, so every definition stays computable and every theorem
quantifies over an arbitrary interpretation of those functions; no claim in
this development depends on their values, only on the surrounding control
flow and on the exact (rational) arithmetic paths.
-/

/-- Status codes of the numerical-functions library (`nfu_status`). -/
inductive NfuStatus where
  | Okay
  | badSelf
  | badIntegrationInput
  | otherInterpolation
  | unsupportedInterpolation
  | badNorm
  | divByZero
  | Error
  | mallocError
deriving DecidableEq, Inhabited

/-- Interpolation laws of a piecewise function (`ptwXY_interpolation`). -/
inductive ptwXY_interpolation where
  | linLin
  | logLin
  | linLog
  | logLog
  | flat
  | other
deriving DecidableEq, Inhabited

/-- Normalization modes for group integration (`ptwXY_group_normType`). -/
inductive ptwXY_group_normType where
  | none
  | dx
  | norm
deriving DecidableEq, Inhabited

/-- One `(x, y)` point of a piecewise function (`ptwXYPoint`). -/
structure PtwXYPoint where
  x : ℚ
  y : ℚ
deriving DecidableEq, Inhabited

/-- A piecewise function (`ptwXYPoints`): a status flag, an interpolation
law and the logical sequence of points. -/
structure PtwXYPoints where
  status : NfuStatus
  interpolation : ptwXY_interpolation
  points : List PtwXYPoint
deriving DecidableEq, Inhabited

/-- A plain sequence of doubles with a status flag (`ptwXPoints`). -/
structure PtwXPoints where
  status : NfuStatus
  points : List ℚ
deriving DecidableEq, Inhabited

/-- Interpretations of the transcendental C library functions used by the
integration module.  The development is parametric in these, because no
settled claim depends on their values. -/
structure MathFns where
  log : ℚ → ℚ
  exp : ℚ → ℚ
  powr : ℚ → ℚ → ℚ
  sqrtQ : ℚ → ℚ

/-- A fixed trivial interpretation of the transcendental functions, used
only to instantiate concrete (linear-law) evaluations, which never consult
them. -/
def M0 : MathFns := ⟨fun _ => 0, fun _ => 0, fun _ _ => 0, fun _ => 0⟩

/-- Truncation of a rational toward zero, the C `(int)` cast. -/
def truncInt (a : ℚ) : ℤ := if 0 ≤ a then a.floor else a.ceil

/-- The truncated power-series loop in the `logLog` branch of
`ptwXY_f_integrate`: `for( i = 0, s = 0.; i < n; i++, a++, f-- )
s = ( 1. + s ) * a * z / f;`. -/
def logLogSeries (z : ℚ) : ℕ → ℚ → ℚ → ℚ → ℚ
  | 0, _, _, s => s
  | k + 1, a, f, s => logLogSeries z k (a + 1) (f - 1) ((1 + s) * a * z / f)

/-- `ptwXY_f_integrate`: closed-form integral of one segment under a given
law.  Returns the status together with the value written through the
output parameter (`*value` is set to `0.` on entry, so it is `0` whenever
an error branch is taken). -/
def ptwXY_f_integrate (M : MathFns) (interp : ptwXY_interpolation)
    (x1 y1 x2 y2 : ℚ) : NfuStatus × ℚ :=
  match interp with
  | .linLin => (.Okay, 1/2 * (y1 + y2) * (x2 - x1))
  | .logLin =>
      if y1 ≤ 0 ∨ y2 ≤ 0 then (.badIntegrationInput, 0)
      else
        let r := y2 / y1
        if |r - 1| < 1/10000 then
          let r' := r - 1
          (.Okay, y1 * (x2 - x1) /
            (1 + r' * (-(1/2) + r' * (1/3 + r' * (-(1/4) + 1/5 * r')))))
        else
          (.Okay, (y2 - y1) * (x2 - x1) / M.log r)
  | .linLog =>
      if x1 ≤ 0 ∨ x2 ≤ 0 then (.badIntegrationInput, 0)
      else
        let r := x2 / x1
        if |r - 1| < 1/10000 then
          let r' := r - 1
          let r'' := r' * (-(1/2) + r' * (1/3 + r' * (-(1/4) + 1/5 * r')))
          (.Okay, x1 * (y2 - y1) * r'' / (1 + r'') + y2 * (x2 - x1))
        else
          (.Okay, (y1 - y2) * (x2 - x1) / M.log r + x2 * y2 - x1 * y1)
  | .logLog =>
      if x1 ≤ 0 ∨ x2 ≤ 0 ∨ y1 ≤ 0 ∨ y2 ≤ 0 then (.badIntegrationInput, 0)
      else
        let ry := y2 / y1
        let ly := if |ry - 1| < 1/10000 then
            let t := (y2 - y1) / y1
            t * (1 + t * (-(1/2) + t * (1/3 - 1/4 * t)))
          else M.log ry
        let rx := x2 / x1
        let lx := if |rx - 1| < 1/10000 then
            let t := (x2 - x1) / x1
            t * (1 + t * (-(1/2) + t * (1/3 - 1/4 * t)))
          else M.log rx
        let a := ly / lx
        if |rx - 1| < 1/1000 then
          let z := (x2 - x1) / x1
          let n0 := truncInt a
          let n1 := if n0 > 10 then 12 else n0
          let n2 := if n1 < 4 then 6 else n1
          let s := logLogSeries z n2.toNat (a - (n2 : ℚ) + 1) ((n2 : ℚ) + 1) 0
          (.Okay, y1 * (x2 - x1) * (1 + s))
        else
          (.Okay, y1 * x1 * (M.powr rx (a + 1) - 1) / (a + 1))
  | .flat => (.Okay, y1 * (x2 - x1))
  | .other => (.otherInterpolation, 0)

/-- Modelled from the spec: the external point-evaluator
`ptwXY_interpolatePoint` (not under `src/`).  Given a law and two
endpoints, it returns the interpolated `y` at `x`, failing under the same
positivity constraints as the segment integrator (spec section 6 with
section 4.1). -/
def ptwXY_interpolatePoint (M : MathFns) (interp : ptwXY_interpolation)
    (x x1 y1 x2 y2 : ℚ) : NfuStatus × ℚ :=
  match interp with
  | .linLin => (.Okay, (y1 * (x2 - x) + y2 * (x - x1)) / (x2 - x1))
  | .flat => (.Okay, y1)
  | .logLin =>
      if y1 ≤ 0 ∨ y2 ≤ 0 then (.badIntegrationInput, 0)
      else (.Okay, y1 * M.exp (M.log (y2 / y1) * (x - x1) / (x2 - x1)))
  | .linLog =>
      if x1 ≤ 0 ∨ x2 ≤ 0 then (.badIntegrationInput, 0)
      else (.Okay, y1 + (y2 - y1) * M.log (x / x1) / M.log (x2 / x1))
  | .logLog =>
      if x1 ≤ 0 ∨ x2 ≤ 0 ∨ y1 ≤ 0 ∨ y2 ≤ 0 then (.badIntegrationInput, 0)
      else (.Okay, y1 * M.exp (M.log (y2 / y1) * M.log (x / x1) / M.log (x2 / x1)))
  | .other => (.otherInterpolation, 0)

/-- Modelled from the spec: the external point-storage routine
`ptwXY_simpleCoalescePoints` (not under `src/`) merges the overflow buffer
into the primary point array.  The spec's data model guarantees duplicate
abscissas are merged before any integration runs, so on the logical point
sequence the routine is the identity and always succeeds. -/
def ptwXY_simpleCoalescePoints (pts : List PtwXYPoint) : List PtwXYPoint := pts

/-- The scan `for( i = 0, point = ptwXY->points; i < n; i++, point++ )
if( point->x >= domainMin ) break;` returning the point before the stop
position (when any) and the remaining suffix. -/
def seekPrev (lo : ℚ) : Option PtwXYPoint → List PtwXYPoint →
    Option PtwXYPoint × List PtwXYPoint
  | prev, [] => (prev, [])
  | prev, p :: ps => if p.x ≥ lo then (prev, p :: ps) else seekPrev lo (some p) ps

/-- The main accumulation loop of `ptwXY_integrate` (lines 245-267): walks
consecutive segments, clipping the final one at `hi`.  On an error the
accumulated value so far is what remains in `*value`. -/
def integrateLoop (M : MathFns) (interp : ptwXY_interpolation) (hi : ℚ) :
    List PtwXYPoint → ℚ → ℚ → ℚ → NfuStatus × ℚ
  | [], _, _, acc => (.Okay, acc)
  | p :: ps, x1, y1, acc =>
      if p.x > hi then
        match ptwXY_interpolatePoint M interp hi x1 y1 p.x p.y with
        | (.Okay, y) =>
            match ptwXY_f_integrate M interp x1 y1 hi y with
            | (.Okay, d) => (.Okay, acc + d)
            | (st, _) => (st, acc)
        | (st, _) => (st, acc)
      else
        match ptwXY_f_integrate M interp x1 y1 p.x p.y with
        | (.Okay, d) => integrateLoop M interp hi ps p.x p.y (acc + d)
        | (st, _) => (st, acc)

/-- Body of `ptwXY_integrate` after the early checks and the coalesce
(lines 212-271).  Note that the early-return branch where both bounds fall
inside the first bracketing segment returns the segment integral directly,
without the final `*value *= _sign;`. -/
def integrateBody (M : MathFns) (interp : ptwXY_interpolation)
    (pts : List PtwXYPoint) (lo hi sgn : ℚ) : NfuStatus × ℚ :=
  match seekPrev lo none pts with
  | (_, []) => (.Okay, 0)
  | (prev, p2 :: rest) =>
    match prev with
    | some p1 =>
      if p2.x > lo then
        match ptwXY_interpolatePoint M interp lo p1.x p1.y p2.x p2.y with
        | (.Okay, y) =>
          if p2.x > hi then
            match ptwXY_interpolatePoint M interp hi p1.x p1.y p2.x p2.y with
            | (.Okay, rangeMax) => ptwXY_f_integrate M interp lo y hi rangeMax
            | (st, _) => (st, 0)
          else
            match ptwXY_f_integrate M interp lo y p2.x p2.y with
            | (.Okay, v) =>
              match integrateLoop M interp hi rest p2.x p2.y v with
              | (.Okay, t) => (.Okay, sgn * t)
              | (st, t) => (st, t)
            | (st, _) => (st, 0)
        | (st, _) => (st, 0)
      else
        match integrateLoop M interp hi rest p2.x p2.y 0 with
        | (.Okay, t) => (.Okay, sgn * t)
        | (st, t) => (st, t)
    | none =>
      match integrateLoop M interp hi rest p2.x p2.y 0 with
      | (.Okay, t) => (.Okay, sgn * t)
      | (st, t) => (st, t)

/-- `ptwXY_integrate`: domain-clipped definite integral.  The result is the
returned status, the contents of `*value`, and the post-call state of the
input function (its points are coalesced once the walk is reached). -/
def ptwXY_integrate (M : MathFns) (f : PtwXYPoints) (domainMin domainMax : ℚ) :
    NfuStatus × ℚ × PtwXYPoints :=
  if f.status ≠ .Okay then (.badSelf, 0, f)
  else if f.interpolation = .other then (.otherInterpolation, 0, f)
  else if f.points.length < 2 then (.Okay, 0, f)
  else
    let lohs : ℚ × ℚ × ℚ :=
      if domainMax < domainMin then (domainMax, domainMin, -1) else (domainMin, domainMax, 1)
    let f' : PtwXYPoints := { f with points := ptwXY_simpleCoalescePoints f.points }
    let r := integrateBody M f'.interpolation f'.points lohs.1 lohs.2.1 lohs.2.2
    (r.1, r.2, f')

/-- `ptwXY_integrateDomain`: integral over the function's own domain
(`ptwXY_domainMin`/`ptwXY_domainMax` are the first and last abscissas). -/
def ptwXY_integrateDomain (M : MathFns) (f : PtwXYPoints) :
    NfuStatus × ℚ × PtwXYPoints :=
  if f.status ≠ .Okay then (.badSelf, 0, f)
  else if 0 < f.points.length then
    let lo := (f.points.headD ⟨0, 0⟩).x
    let hi := (f.points.getLastD ⟨0, 0⟩).x
    ptwXY_integrate M f lo hi
  else (.Okay, 0, f)

/-- `ptwXY_normalize`: divides every `y` by the full-domain integral,
failing with `badNorm` when that integral is exactly zero.  Returns the
status and the post-call state of the function. -/
def ptwXY_normalize (M : MathFns) (f : PtwXYPoints) : NfuStatus × PtwXYPoints :=
  let d := ptwXY_integrateDomain M f
  if d.1 ≠ .Okay then (d.1, d.2.2)
  else if d.2.1 = 0 then (.badNorm, d.2.2)
  else (.Okay, { d.2.2 with points := d.2.2.points.map fun p => ⟨p.x, p.y / d.2.1⟩ })

/-- Per-segment closed form of the `x`-weighted integrator
(the `switch` at lines 423-439); the default arm of the `switch` is
unreachable under the earlier law check. -/
def weightXTerm (M : MathFns) (interp : ptwXY_interpolation)
    (x1 y1 x2 y2 : ℚ) : ℚ :=
  match interp with
  | .flat => 1/2 * (x2 - x1) * y1 * (x1 + x2)
  | .linLin => (x2 - x1) * (y1 * (2 * x1 + x2) + y2 * (x1 + 2 * x2)) / 6
  | .logLin =>
      let inv_a1 := (x2 - x1) / M.log (y2 / y1)
      let a1 := 1 / inv_a1
      inv_a1 * inv_a1 * (M.exp (a1 * x2) * (a1 * x2 - 1) - M.exp (a1 * x1) * (a1 * x1 - 1))
  | _ => 0

/-- The walking loop of `ptwXY_integrateWithWeight_x` (lines 410-441):
advances segment by segment, clipping the last segment at `hi` and
stopping when the clipped right edge equals `hi`. -/
def weightXLoop (M : MathFns) (interp : ptwXY_interpolation) (hi : ℚ) :
    List PtwXYPoint → ℚ → ℚ → ℚ → NfuStatus × ℚ
  | [], _, _, s => (.Okay, s)
  | p :: ps, x1, y1, s =>
      if p.x > hi then
        match ptwXY_interpolatePoint M interp hi x1 y1 p.x p.y with
        | (.Okay, y) => (.Okay, s + weightXTerm M interp x1 y1 hi y)
        | (st, _) => (st, 0)
      else
        let s' := s + weightXTerm M interp x1 y1 p.x p.y
        if p.x = hi then (.Okay, s')
        else weightXLoop M interp hi ps p.x p.y s'

/-- Body of `ptwXY_integrateWithWeight_x` after the early checks and the
coalesce (lines 389-443): seek the first point at or beyond `lo`, replace
the initial segment's left point by the interpolated value at `lo`, walk,
and apply the sign on success. -/
def weightXBody (M : MathFns) (interp : ptwXY_interpolation)
    (pts : List PtwXYPoint) (lo hi sgn : ℚ) : NfuStatus × ℚ :=
  match seekPrev lo none pts with
  | (_, []) => (NfuStatus.Okay, (0 : ℚ))
  | (prev, p2 :: rest) =>
    let stepStart : NfuStatus × ℚ :=
      match prev with
      | some p1 =>
          if p2.x > lo then
            match ptwXY_interpolatePoint M interp lo p1.x p1.y p2.x p2.y with
            | (.Okay, y) => weightXLoop M interp hi (p2 :: rest) lo y 0
            | (st, _) => (st, 0)
          else weightXLoop M interp hi rest p2.x p2.y 0
      | none => weightXLoop M interp hi rest p2.x p2.y 0
    match stepStart with
    | (.Okay, s) => (.Okay, sgn * s)
    | (st, _) => (st, 0)

/-- `ptwXY_integrateWithWeight_x`: integral of `f(x)·x` over a sub-domain.
Returns the status, the contents of `*value`, and the post-call state. -/
def ptwXY_integrateWithWeight_x (M : MathFns) (f : PtwXYPoints)
    (domainMin domainMax : ℚ) : NfuStatus × ℚ × PtwXYPoints :=
  if f.status ≠ .Okay then (.badSelf, 0, f)
  else if ¬(f.interpolation = .linLin ∨ f.interpolation = .logLin ∨
      f.interpolation = .flat) then (.unsupportedInterpolation, 0, f)
  else if f.points.length < 2 then (.Okay, 0, f)
  else
    let lohs : ℚ × ℚ × ℚ :=
      if domainMax < domainMin then (domainMax, domainMin, -1) else (domainMin, domainMax, 1)
    let f' : PtwXYPoints := { f with points := ptwXY_simpleCoalescePoints f.points }
    let r := weightXBody M f'.interpolation f'.points lohs.1 lohs.2.1 lohs.2.2
    (r.1, r.2, f')

/-- Per-segment closed form of the `√x`-weighted integrator
(the `switch` at lines 546-555). -/
def weightSqrtTerm (interp : ptwXY_interpolation)
    (x1 y1 x2 y2 sqx1 sqx2 : ℚ) : ℚ :=
  let inv_apb := sqx1 + sqx2
  let c := 2 * (sqx1 * sqx2 + x1 + x2)
  match interp with
  | .flat => (sqx2 - sqx1) * y1 * (5/2) * c
  | .linLin => (sqx2 - sqx1) * (y1 * (c + x1 * (1 + sqx2 / inv_apb)) +
      y2 * (c + x2 * (1 + sqx1 / inv_apb)))
  | _ => 0

/-- The walking loop of `ptwXY_integrateWithWeight_sqrt_x` (lines 529-557),
carrying the square root of the previous right edge. -/
def weightSqrtLoop (M : MathFns) (interp : ptwXY_interpolation) (hi : ℚ) :
    List PtwXYPoint → ℚ → ℚ → ℚ → ℚ → NfuStatus × ℚ
  | [], _, _, _, s => (.Okay, s)
  | p :: ps, x1, y1, sqx1, s =>
      if p.x > hi then
        match ptwXY_interpolatePoint M interp hi x1 y1 p.x p.y with
        | (.Okay, y) => (.Okay, s + weightSqrtTerm interp x1 y1 hi y sqx1 (M.sqrtQ hi))
        | (st, _) => (st, 0)
      else
        let sqx2 := M.sqrtQ p.x
        let s' := s + weightSqrtTerm interp x1 y1 p.x p.y sqx1 sqx2
        if p.x = hi then (.Okay, s')
        else weightSqrtLoop M interp hi ps p.x p.y sqx2 s'

/-- Body of `ptwXY_integrateWithWeight_sqrt_x` after the early checks and
the coalesce (lines 508-559). -/
def weightSqrtBody (M : MathFns) (interp : ptwXY_interpolation)
    (pts : List PtwXYPoint) (lo hi sgn : ℚ) : NfuStatus × ℚ :=
  match seekPrev lo none pts with
  | (_, []) => (NfuStatus.Okay, (0 : ℚ))
  | (prev, p2 :: rest) =>
    let stepStart : NfuStatus × ℚ :=
      match prev with
      | some p1 =>
          if p2.x > lo then
            match ptwXY_interpolatePoint M interp lo p1.x p1.y p2.x p2.y with
            | (.Okay, y) => weightSqrtLoop M interp hi (p2 :: rest) lo y (M.sqrtQ lo) 0
            | (st, _) => (st, 0)
          else weightSqrtLoop M interp hi rest p2.x p2.y (M.sqrtQ p2.x) 0
      | none => weightSqrtLoop M interp hi rest p2.x p2.y (M.sqrtQ p2.x) 0
    match stepStart with
    | (.Okay, s) => (.Okay, 2/15 * sgn * s)
    | (st, _) => (st, 0)

/-- `ptwXY_integrateWithWeight_sqrt_x`: integral of `f(x)·√x` over a
sub-domain.  Returns the status, the contents of `*value`, and the
post-call state. -/
def ptwXY_integrateWithWeight_sqrt_x (M : MathFns) (f : PtwXYPoints)
    (domainMin domainMax : ℚ) : NfuStatus × ℚ × PtwXYPoints :=
  if f.status ≠ .Okay then (.badSelf, 0, f)
  else if ¬(f.interpolation = .linLin ∨ f.interpolation = .flat) then
    (.unsupportedInterpolation, 0, f)
  else if f.points.length < 2 then (.Okay, 0, f)
  else
    let lohs : ℚ × ℚ × ℚ :=
      if domainMax < domainMin then (domainMax, domainMin, -1) else (domainMin, domainMax, 1)
    let f' : PtwXYPoints := { f with points := ptwXY_simpleCoalescePoints f.points }
    let r := weightSqrtBody M f'.interpolation f'.points lohs.1 lohs.2.1 lohs.2.2
    (r.1, r.2, f')

/-- The loop of `ptwXY_runningIntegral` (lines 925-930): per consecutive
point pair, accumulate the segment integral and record the running value. -/
def runningLoop (M : MathFns) (interp : ptwXY_interpolation) :
    List PtwXYPoint → ℚ → Except NfuStatus (List ℚ)
  | p :: q :: rest, acc =>
      match ptwXY_f_integrate M interp p.x p.y q.x q.y with
      | (.Okay, s) =>
          match runningLoop M interp (q :: rest) (acc + s) with
          | .ok l => .ok ((acc + s) :: l)
          | .error st => .error st
      | (st, _) => .error st
  | _, _ => .ok []

/-- `ptwXY_runningIntegral`: the cumulative integral sequence, one entry
per point, first entry `0`.  Returns the built `ptwX` sequence (or the
error) and the post-call state of the input. -/
def ptwXY_runningIntegral (M : MathFns) (f : PtwXYPoints) :
    Except NfuStatus (List ℚ) × PtwXYPoints :=
  let f' : PtwXYPoints := { f with points := ptwXY_simpleCoalescePoints f.points }
  let r := match runningLoop M f'.interpolation f'.points 0 with
    | .ok l => Except.ok ((0 : ℚ) :: l)
    | .error st => Except.error st
  (r, f')

/-- The adaptive-quadrature collaborator `nf_GnG_adaptiveQuadrature`
applied through the glue functions `ptwXY_integrateWithFunction2/3`
(spec section 6): given the quadrature degree, recursion limit and
tolerance, the current segment's law and endpoints, and the subinterval
bounds, it returns a status and an integral estimate.  The development is
parametric in it, since it is an external primitive. -/
def QuadPrimitive : Type :=
  ℤ → ℤ → ℚ → ptwXY_interpolation → PtwXYPoint → PtwXYPoint → ℚ → ℚ → NfuStatus × ℚ

/-- The index scan `for( i1 = 0; i1 < ( n1 - 1 ); i1++ )
if( ptwXY->points[i1+1].x > domainMin ) break;`. -/
def iwfStartIdx (lo : ℚ) : List PtwXYPoint → ℕ
  | p :: q :: rest => if q.x > lo then 0 else 1 + iwfStartIdx lo (q :: rest)
  | _ => 0

/-- The downward scan `for( i2 = n1 - 1; i2 > i1; i2-- )
if( ptwXY->points[i2-1].x < domainMax ) break;`. -/
def iwfEndIdx (pts : List PtwXYPoint) (hi : ℚ) (i1 : ℕ) : ℕ → ℕ
  | 0 => i1
  | j + 1 => if j + 1 ≤ i1 then i1
      else if (pts.getD j ⟨0, 0⟩).x < hi then j + 1
      else iwfEndIdx pts hi i1 j

/-- The segment loop of `ptwXY_integrateWithFunction` (lines 984-1000):
one adaptive-quadrature call per bracketed segment, clipped at `hi`. -/
def iwfLoop (quad : QuadPrimitive) (degree recLim : ℤ) (tol : ℚ)
    (interp : ptwXY_interpolation) (hi : ℚ) :
    ℕ → List PtwXYPoint → ℚ → ℚ → Except NfuStatus ℚ
  | 0, _, _, acc => .ok acc
  | k + 1, p1 :: p2 :: rest, xa, acc =>
      let xb := if p2.x > hi then hi else p2.x
      match quad degree recLim tol interp p1 p2 xa xb with
      | (.Okay, v) => iwfLoop quad degree recLim tol interp hi k (p2 :: rest) xb (acc + v)
      | (st, _) => .error st
  | _ + 1, _, _, acc => .ok acc

/-- `ptwXY_integrateWithFunction`: adaptive-quadrature integral of the
interpolant times an external integrand.  `valueIn` is the caller's
initial contents of `*value`; the routine only assigns `*value` on the
final success path, so on every other path `valueIn` is what the caller
still sees.  Returns the status, the contents of `*value`, and the
post-call state. -/
def ptwXY_integrateWithFunction (quad : QuadPrimitive) (f : PtwXYPoints)
    (domainMin domainMax : ℚ) (degree recLim : ℤ) (tol : ℚ) (valueIn : ℚ) :
    NfuStatus × ℚ × PtwXYPoints :=
  let f' : PtwXYPoints := { f with points := ptwXY_simpleCoalescePoints f.points }
  if domainMin = domainMax then (.Okay, valueIn, f')
  else if f.points.length < 2 then (.Okay, valueIn, f')
  else
    let lh : ℚ × ℚ :=
      if domainMin > domainMax then (domainMax, domainMin) else (domainMin, domainMax)
    if lh.1 ≥ (f'.points.getLastD ⟨0, 0⟩).x then (.Okay, valueIn, f')
    else if lh.2 ≤ (f'.points.headD ⟨0, 0⟩).x then (.Okay, valueIn, f')
    else
      let i1 := iwfStartIdx lh.1 f'.points
      let i2 := iwfEndIdx f'.points lh.2 i1 (f'.points.length - 1)
      match iwfLoop quad degree recLim tol f'.interpolation lh.2 (i2 - i1)
          (f'.points.drop i1) lh.1 0 with
      | .ok integral => (.Okay, integral, f')
      | .error st => (st, valueIn, f')

/-- Insertion of a rational into a sorted list. -/
def insertSorted (x : ℚ) : List ℚ → List ℚ
  | [] => [x]
  | y :: ys => if x ≤ y then x :: y :: ys else y :: insertSorted x ys

/-- Insertion sort for rationals. -/
def sortQ : List ℚ → List ℚ
  | [] => []
  | x :: xs => insertSorted x (sortQ xs)

/-- Removal of adjacent duplicates (full deduplication on sorted input). -/
def dedupAdj : List ℚ → List ℚ
  | [] => []
  | [x] => [x]
  | x :: y :: r => if x = y then dedupAdj (y :: r) else x :: dedupAdj (y :: r)

/-- Evaluation of a piecewise function at `x` through the point-evaluator:
locate the bracketing segment and interpolate; an original breakpoint
keeps its own stored value. -/
def evalAt (M : MathFns) (interp : ptwXY_interpolation) :
    List PtwXYPoint → ℚ → ℚ
  | [], _ => 0
  | [p], _ => p.y
  | p1 :: p2 :: rest, x =>
      if x < p2.x then (ptwXY_interpolatePoint M interp x p1.x p1.y p2.x p2.y).2
      else if x = p2.x then p2.y
      else evalAt M interp (p2 :: rest) x

/-- Modelled from the spec: the external collaborator
`ptwXY_intersectionWith_ptwX` (not under `src/`) restricts a function to
the span of a boundary grid, adding interpolated points exactly at the
boundaries (spec sections 4.4(c) and 6).  A function with fewer than two
points, or with no overlap with the grid's span, intersects to the empty
function. -/
def ptwXY_intersectionWith_ptwX (M : MathFns) (f : PtwXYPoints)
    (bg : List ℚ) : PtwXYPoints :=
  if f.points.length < 2 ∨ bg = [] then
    { status := .Okay, interpolation := f.interpolation, points := [] }
  else
    let lo := max (f.points.headD ⟨0, 0⟩).x (bg.headD 0)
    let hi := min (f.points.getLastD ⟨0, 0⟩).x (bg.getLastD 0)
    if hi ≤ lo then { status := .Okay, interpolation := f.interpolation, points := [] }
    else
      let xs := dedupAdj (sortQ (((f.points.map PtwXYPoint.x) ++ bg).filter
        (fun x => lo ≤ x ∧ x ≤ hi)))
      { status := .Okay, interpolation := f.interpolation,
        points := xs.map (fun x => ⟨x, evalAt M f.interpolation f.points x⟩) }

/-- Modelled from the spec: the external collaborator
`ptwXY_tweakDomainsToMutualify` (not under `src/`) aligns two functions'
domain edges within a small epsilon tolerance (spec section 6).  In this
exact-arithmetic model the tolerance collapses to exact agreement: the
call succeeds, leaving both functions unchanged, exactly when the domain
edges already coincide, and fails otherwise. -/
def ptwXY_tweakDomainsToMutualify (a b : PtwXYPoints) :
    Except NfuStatus (PtwXYPoints × PtwXYPoints) :=
  if (a.points.headD ⟨0, 0⟩).x = (b.points.headD ⟨0, 0⟩).x ∧
      (a.points.getLastD ⟨0, 0⟩).x = (b.points.getLastD ⟨0, 0⟩).x then .ok (a, b)
  else .error .Error

/-- Modelled from the spec: the external collaborator `ptwXY_union` with
the fill option (not under `src/`) merges two functions onto the common
breakpoint grid (spec section 6): the result keeps the first function's
law, its breakpoints are the sorted union of both functions' breakpoints,
and each `y` is the first function's value there (0 outside its domain). -/
def ptwXY_unionFill (M : MathFns) (a b : PtwXYPoints) : PtwXYPoints :=
  let xs := dedupAdj (sortQ ((a.points.map PtwXYPoint.x) ++ (b.points.map PtwXYPoint.x)))
  { status := .Okay, interpolation := a.interpolation,
    points := xs.map (fun x =>
      ⟨x, if a.points = [] ∨ x < (a.points.headD ⟨0, 0⟩).x ∨
            (a.points.getLastD ⟨0, 0⟩).x < x then 0
          else evalAt M a.interpolation a.points x⟩) }

/-- Inner accumulation loop of `ptwXY_groupOneFunction` (lines 622-628):
consume points up to the bin's right edge `xg2`; a point beyond it stops
the loop without being consumed. -/
def binInner1 (flatF : Bool) (xg2 : ℚ) :
    List PtwXYPoint → ℚ → ℚ → ℚ → ℚ × List PtwXYPoint × ℚ × ℚ
  | [], x1, y1, s => (s, [], x1, y1)
  | p :: ps, x1, y1, s =>
      if p.x > xg2 then (s, p :: ps, x1, y1)
      else binInner1 flatF xg2 ps p.x p.y
        (s + (y1 + (if flatF then y1 else p.y)) * (p.x - x1))

/-- The per-bin sweep of `ptwXY_groupOneFunction` (lines 618-629): the raw
(pre-normalization) sum of each bin, the walk state persisting from bin
to bin. -/
def binSweep1 (flatF : Bool) :
    List ℚ → List PtwXYPoint → ℚ → ℚ → List ℚ
  | [], _, _, _ => []
  | xg2 :: bs, rest, x1, y1 =>
      if xg2 > x1 then
        let r := binInner1 flatF xg2 rest x1 y1 0
        r.1 :: binSweep1 flatF bs r.2.1 r.2.2.1 r.2.2.2
      else 0 :: binSweep1 flatF bs rest x1 y1

/-- Inner accumulation loop of `ptwXY_groupTwoFunctions` (lines 730-738),
walking the two merged functions in lockstep. -/
def binInner2 (flatF flatG : Bool) (xg2 : ℚ) :
    List (PtwXYPoint × PtwXYPoint) → ℚ → ℚ → ℚ → ℚ →
    ℚ × List (PtwXYPoint × PtwXYPoint) × ℚ × ℚ × ℚ
  | [], x1, fy1, gy1, s => (s, [], x1, fy1, gy1)
  | pq :: ps, x1, fy1, gy1, s =>
      if pq.1.x > xg2 then (s, pq :: ps, x1, fy1, gy1)
      else
        let fy2p := if flatF then fy1 else pq.1.y
        let gy2p := if flatG then gy1 else pq.2.y
        binInner2 flatF flatG xg2 ps pq.1.x pq.1.y pq.2.y
          (s + ((fy1 + fy2p) * (gy1 + gy2p) + fy1 * gy1 + fy2p * gy2p) * (pq.1.x - x1))

/-- The per-bin sweep of `ptwXY_groupTwoFunctions` (lines 726-739). -/
def binSweep2 (flatF flatG : Bool) :
    List ℚ → List (PtwXYPoint × PtwXYPoint) → ℚ → ℚ → ℚ → List ℚ
  | [], _, _, _, _ => []
  | xg2 :: bs, rest, x1, fy1, gy1 =>
      if xg2 > x1 then
        let r := binInner2 flatF flatG xg2 rest x1 fy1 gy1 0
        r.1 :: binSweep2 flatF flatG bs r.2.1 r.2.2.1 r.2.2.2.1 r.2.2.2.2
      else 0 :: binSweep2 flatF flatG bs rest x1 fy1 gy1

/-- Inner accumulation loop of `ptwXY_groupThreeFunctions`
(lines 859-869), walking the three merged functions in lockstep. -/
def binInner3 (flatF flatG flatH : Bool) (xg2 : ℚ) :
    List (PtwXYPoint × PtwXYPoint × PtwXYPoint) → ℚ → ℚ → ℚ → ℚ → ℚ →
    ℚ × List (PtwXYPoint × PtwXYPoint × PtwXYPoint) × ℚ × ℚ × ℚ × ℚ
  | [], x1, fy1, gy1, hy1, s => (s, [], x1, fy1, gy1, hy1)
  | t :: ps, x1, fy1, gy1, hy1, s =>
      if t.1.x > xg2 then (s, t :: ps, x1, fy1, gy1, hy1)
      else
        let fy2p := if flatF then fy1 else t.1.y
        let gy2p := if flatG then gy1 else t.2.1.y
        let hy2p := if flatH then hy1 else t.2.2.y
        binInner3 flatF flatG flatH xg2 ps t.1.x t.1.y t.2.1.y t.2.2.y
          (s + ((fy1 + fy2p) * (gy1 + gy2p) * (hy1 + hy2p) +
            2 * fy1 * gy1 * hy1 + 2 * fy2p * gy2p * hy2p) * (t.1.x - x1))

/-- The per-bin sweep of `ptwXY_groupThreeFunctions` (lines 855-885). -/
def binSweep3 (flatF flatG flatH : Bool) :
    List ℚ → List (PtwXYPoint × PtwXYPoint × PtwXYPoint) → ℚ → ℚ → ℚ → ℚ → List ℚ
  | [], _, _, _, _, _ => []
  | xg2 :: bs, rest, x1, fy1, gy1, hy1 =>
      if xg2 > x1 then
        let r := binInner3 flatF flatG flatH xg2 rest x1 fy1 gy1 hy1 0
        r.1 :: binSweep3 flatF flatG flatH bs r.2.1 r.2.2.1 r.2.2.2.1 r.2.2.2.2.1 r.2.2.2.2.2
      else 0 :: binSweep3 flatF flatG flatH bs rest x1 fy1 gy1 hy1

/-- The per-bin normalization and storing pass shared by the three group
integrators: a raw sum is divided by the bin width (`dx` mode) or by the
norm entry (`norm` mode, failing with `divByZero` on a zero entry) only
when it is nonzero, then scaled by the routine's constant `c`
(`1/2`, `1/6` or `1/12`). -/
def normPass (nt : ptwXY_group_normType) (c : ℚ) :
    List ℚ → List (ℚ × ℚ) → List ℚ → Except NfuStatus (List ℚ)
  | [], _, _ => .ok []
  | s :: ss, bb, nn =>
      let bnd := bb.headD (0, 0)
      let nrm := nn.headD 1
      let step : Except NfuStatus ℚ :=
        if s ≠ 0 then
          if nt = .dx then .ok (s / (bnd.2 - bnd.1))
          else if nt = .norm then
            (if nrm = 0 then .error .divByZero else .ok (s / nrm))
          else .ok s
        else .ok s
      match step with
      | .error e => .error e
      | .ok s' =>
          match normPass nt c ss bb.tail nn.tail with
          | .error e => .error e
          | .ok rest => .ok (c * s' :: rest)

/-- The consecutive boundary pairs `(xg1, xg2)` of a boundary grid. -/
def binBounds (bg : List ℚ) : List (ℚ × ℚ) := bg.zip bg.tail

/-- The intersection stage of `ptwXY_groupOneFunction` (line 604). -/
def groupOnePrepared (M : MathFns) (f : PtwXYPoints) (bg : List ℚ) : PtwXYPoints :=
  ptwXY_intersectionWith_ptwX M { f with points := ptwXY_simpleCoalescePoints f.points } bg

/-- `ptwXY_groupOneFunction`: per-bin integral of one function against a
group-boundary grid.  Returns the grouped vector (or the root error
code) and the post-call state of the input function. -/
def ptwXY_groupOneFunction (M : MathFns) (f : PtwXYPoints) (bg : PtwXPoints)
    (nt : ptwXY_group_normType) (norm : Option PtwXPoints) :
    Except NfuStatus (List ℚ) × PtwXYPoints :=
  let fc : PtwXYPoints := { f with points := ptwXY_simpleCoalescePoints f.points }
  if bg.status ≠ .Okay then (.error .badSelf, fc)
  else if f.interpolation = .other then (.error .otherInterpolation, fc)
  else
    let ngs : ℤ := (bg.points.length : ℤ) - 1
    let normCheck : Option NfuStatus :=
      if nt = .norm then
        match norm with
        | Option.none => some .badNorm
        | some nv =>
            if nv.status ≠ .Okay then some .badSelf
            else if (nv.points.length : ℤ) ≠ ngs then some .badNorm
            else Option.none
      else Option.none
    match normCheck with
    | some st => (.error st, fc)
    | Option.none =>
      let fi := groupOnePrepared M f bg.points
      match fi.points with
      | [] => (.ok (List.replicate ngs.toNat 0), fc)
      | p0 :: rest =>
          let sums := binSweep1 (fi.interpolation = .flat) bg.points.tail rest p0.x p0.y
          let nn := match norm with
            | some nv => nv.points
            | Option.none => []
          match normPass nt (1/2) sums (binBounds bg.points) nn with
          | .ok l => (.ok l, fc)
          | .error e => (.error e, fc)

/-- The intersection, mutualification and union stages of
`ptwXY_groupTwoFunctions` (lines 707-719); `none` is the empty-
intersection case, which yields an all-zero result. -/
def groupTwoPrepared (M : MathFns) (f1 f2 : PtwXYPoints) (bg : List ℚ) :
    Except NfuStatus (Option (PtwXYPoints × PtwXYPoints)) :=
  let ff := ptwXY_intersectionWith_ptwX M
    { f1 with points := ptwXY_simpleCoalescePoints f1.points } bg
  let gg := ptwXY_intersectionWith_ptwX M
    { f2 with points := ptwXY_simpleCoalescePoints f2.points } bg
  if ff.points = [] ∨ gg.points = [] then .ok Option.none
  else
    match ptwXY_tweakDomainsToMutualify ff gg with
    | .error st => .error st
    | .ok p =>
        let f := ptwXY_unionFill M p.1 p.2
        let g := ptwXY_unionFill M p.2 f
        .ok (some (f, g))

/-- `ptwXY_groupTwoFunctions`: per-bin integral of the product of two
functions against a group-boundary grid.  Returns the grouped vector (or
the root error code) and the post-call states of the two inputs. -/
def ptwXY_groupTwoFunctions (M : MathFns) (f1 f2 : PtwXYPoints)
    (bg : PtwXPoints) (nt : ptwXY_group_normType) (norm : Option PtwXPoints) :
    Except NfuStatus (List ℚ) × PtwXYPoints × PtwXYPoints :=
  let f1c : PtwXYPoints := { f1 with points := ptwXY_simpleCoalescePoints f1.points }
  let f2c : PtwXYPoints := { f2 with points := ptwXY_simpleCoalescePoints f2.points }
  if bg.status ≠ .Okay then (.error .badSelf, f1c, f2c)
  else if f1.interpolation = .other then (.error .otherInterpolation, f1c, f2c)
  else if f2.interpolation = .other then (.error .otherInterpolation, f1c, f2c)
  else
    let ngs : ℤ := (bg.points.length : ℤ) - 1
    let normCheck : Option NfuStatus :=
      if nt = .norm then
        match norm with
        | Option.none => some .badNorm
        | some nv =>
            if nv.status ≠ .Okay then some .badSelf
            else if (nv.points.length : ℤ) ≠ ngs then some .badNorm
            else Option.none
      else Option.none
    match normCheck with
    | some st => (.error st, f1c, f2c)
    | Option.none =>
      match groupTwoPrepared M f1 f2 bg.points with
      | .error st => (.error st, f1c, f2c)
      | .ok Option.none => (.ok (List.replicate ngs.toNat 0), f1c, f2c)
      | .ok (some fg) =>
          match fg.1.points.zip fg.2.points with
          | [] => (.ok (List.replicate ngs.toNat 0), f1c, f2c)
          | z0 :: zrest =>
              let sums := binSweep2 (fg.1.interpolation = .flat)
                (fg.2.interpolation = .flat) bg.points.tail zrest z0.1.x z0.1.y z0.2.y
              let nn := match norm with
                | some nv => nv.points
                | Option.none => []
              match normPass nt (1/6) sums (binBounds bg.points) nn with
              | .ok l => (.ok l, f1c, f2c)
              | .error e => (.error e, f1c, f2c)

/-- The intersection, mutualification and union stages of
`ptwXY_groupThreeFunctions` (lines 829-847). -/
def groupThreePrepared (M : MathFns) (f1 f2 f3 : PtwXYPoints) (bg : List ℚ) :
    Except NfuStatus (Option (PtwXYPoints × PtwXYPoints × PtwXYPoints)) :=
  let ff := ptwXY_intersectionWith_ptwX M
    { f1 with points := ptwXY_simpleCoalescePoints f1.points } bg
  let gg := ptwXY_intersectionWith_ptwX M
    { f2 with points := ptwXY_simpleCoalescePoints f2.points } bg
  let hh := ptwXY_intersectionWith_ptwX M
    { f3 with points := ptwXY_simpleCoalescePoints f3.points } bg
  if ff.points = [] ∨ gg.points = [] ∨ hh.points = [] then .ok Option.none
  else
    match ptwXY_tweakDomainsToMutualify ff gg with
    | .error st => .error st
    | .ok p1 =>
      match ptwXY_tweakDomainsToMutualify p1.1 hh with
      | .error st => .error st
      | .ok p2 =>
        match ptwXY_tweakDomainsToMutualify p1.2 p2.2 with
        | .error st => .error st
        | .ok p3 =>
            let fff := ptwXY_unionFill M p2.1 p3.1
            let h := ptwXY_unionFill M p3.2 fff
            let f := ptwXY_unionFill M fff h
            let g := ptwXY_unionFill M p3.1 h
            .ok (some (f, g, h))

/-- `ptwXY_groupThreeFunctions`: per-bin integral of the product of three
functions against a group-boundary grid.  Returns the grouped vector (or
the root error code) and the post-call states of the three inputs. -/
def ptwXY_groupThreeFunctions (M : MathFns) (f1 f2 f3 : PtwXYPoints)
    (bg : PtwXPoints) (nt : ptwXY_group_normType) (norm : Option PtwXPoints) :
    Except NfuStatus (List ℚ) × PtwXYPoints × PtwXYPoints × PtwXYPoints :=
  let f1c : PtwXYPoints := { f1 with points := ptwXY_simpleCoalescePoints f1.points }
  let f2c : PtwXYPoints := { f2 with points := ptwXY_simpleCoalescePoints f2.points }
  let f3c : PtwXYPoints := { f3 with points := ptwXY_simpleCoalescePoints f3.points }
  if bg.status ≠ .Okay then (.error .badSelf, f1c, f2c, f3c)
  else if f1.interpolation = .other then (.error .otherInterpolation, f1c, f2c, f3c)
  else if f2.interpolation = .other then (.error .otherInterpolation, f1c, f2c, f3c)
  else if f3.interpolation = .other then (.error .otherInterpolation, f1c, f2c, f3c)
  else
    let ngs : ℤ := (bg.points.length : ℤ) - 1
    let normCheck : Option NfuStatus :=
      if nt = .norm then
        match norm with
        | Option.none => some .badNorm
        | some nv =>
            if nv.status ≠ .Okay then some .badSelf
            else if (nv.points.length : ℤ) ≠ ngs then some .badNorm
            else Option.none
      else Option.none
    match normCheck with
    | some st => (.error st, f1c, f2c, f3c)
    | Option.none =>
      match groupThreePrepared M f1 f2 f3 bg.points with
      | .error st => (.error st, f1c, f2c, f3c)
      | .ok Option.none => (.ok (List.replicate ngs.toNat 0), f1c, f2c, f3c)
      | .ok (some fgh) =>
          match fgh.1.points.zip (fgh.2.1.points.zip fgh.2.2.points) with
          | [] => (.ok (List.replicate ngs.toNat 0), f1c, f2c, f3c)
          | z0 :: zrest =>
              let sums := binSweep3 (fgh.1.interpolation = .flat)
                (fgh.2.1.interpolation = .flat) (fgh.2.2.interpolation = .flat)
                bg.points.tail zrest z0.1.x z0.1.y z0.2.1.y z0.2.2.y
              let nn := match norm with
                | some nv => nv.points
                | Option.none => []
              match normPass nt (1/12) sums (binBounds bg.points) nn with
              | .ok l => (.ok l, f1c, f2c, f3c)
              | .error e => (.error e, f1c, f2c, f3c)

/-- The four-point linear-law test function of the concrete scenario:
points `(2,2),(4,4),(6,2),(8,6)`. -/
def fourPointLinLin : PtwXYPoints :=
  { status := .Okay, interpolation := .linLin,
    points := [⟨2, 2⟩, ⟨4, 4⟩, ⟨6, 2⟩, ⟨8, 6⟩] }

def fUnit : PtwXYPoints :=
  { status := .Okay, interpolation := .linLin, points := [⟨0, 1⟩, ⟨1, 1⟩] }

def quadZero : QuadPrimitive := fun _ _ _ _ _ _ _ _ => (.Okay, 0)

def fTwoPoint : PtwXYPoints :=
  { status := .Okay, interpolation := .linLin, points := [⟨2, 2⟩, ⟨4, 4⟩] }

def fOnePoint : PtwXYPoints :=
  { status := .Okay, interpolation := .linLin, points := [⟨2, 2⟩] }

def fZeroNorm : PtwXYPoints :=
  { status := .Okay, interpolation := .linLin, points := [⟨0, 0⟩, ⟨1, 0⟩] }

def fLogLogOkay : PtwXYPoints := { status := .Okay, interpolation := .logLog, points := [] }

def fLinLogOkay : PtwXYPoints := { status := .Okay, interpolation := .linLog, points := [] }

def fBadStatus : PtwXYPoints := { status := .Error, interpolation := .logLog, points := [] }

def bg01 : PtwXPoints := { status := .Okay, points := [0, 1] }

def bg012 : PtwXPoints := { status := .Okay, points := [0, 1, 2] }

def normZ : PtwXPoints := { status := .Okay, points := [0] }

def norm10 : PtwXPoints := { status := .Okay, points := [1, 0] }

/-- Classification of the statuses the segment-level routines can
produce: success or one of the two input-error codes. -/
def plainStatus (s : NfuStatus) : Prop :=
  s = .Okay ∨ s = .badIntegrationInput ∨ s = .otherInterpolation

theorem plainStatus_f_integrate (M : MathFns) (interp : ptwXY_interpolation)
    (x1 y1 x2 y2 : ℚ) : plainStatus (ptwXY_f_integrate M interp x1 y1 x2 y2).1 := by
  cases interp <;> simp only [ptwXY_f_integrate, plainStatus] <;>
    (try split_ifs) <;> simp

theorem plainStatus_interpolatePoint (M : MathFns) (interp : ptwXY_interpolation)
    (x x1 y1 x2 y2 : ℚ) : plainStatus (ptwXY_interpolatePoint M interp x x1 y1 x2 y2).1 := by
  cases interp <;> simp only [ptwXY_interpolatePoint, plainStatus] <;>
    (try split_ifs) <;> simp

theorem plainStatus_integrateLoop (M : MathFns) (interp : ptwXY_interpolation) (hi : ℚ) :
    ∀ (l : List PtwXYPoint) (x1 y1 acc : ℚ),
      plainStatus (integrateLoop M interp hi l x1 y1 acc).1 := by
  intro l
  induction l with
  | nil => intro x1 y1 acc; simp [integrateLoop, plainStatus]
  | cons p ps ih =>
      intro x1 y1 acc
      simp only [integrateLoop]
      split_ifs with h
      · rcases hip : ptwXY_interpolatePoint M interp hi x1 y1 p.x p.y with ⟨st, y⟩
        have hst := plainStatus_interpolatePoint M interp hi x1 y1 p.x p.y
        rw [hip] at hst
        cases st
        · dsimp only
          rcases hfi : ptwXY_f_integrate M interp x1 y1 hi y with ⟨st2, d⟩
          have hst2 := plainStatus_f_integrate M interp x1 y1 hi y
          rw [hfi] at hst2
          cases st2 <;> simp_all [plainStatus]
        all_goals simp_all [plainStatus]
      · rcases hfi : ptwXY_f_integrate M interp x1 y1 p.x p.y with ⟨st2, d⟩
        have hst2 := plainStatus_f_integrate M interp x1 y1 p.x p.y
        rw [hfi] at hst2
        cases st2
        · dsimp only; exact ih p.x p.y (acc + d)
        all_goals simp_all [plainStatus]

theorem plainStatus_integrateBody (M : MathFns) (interp : ptwXY_interpolation)
    (pts : List PtwXYPoint) (lo hi sgn : ℚ) :
    plainStatus (integrateBody M interp pts lo hi sgn).1 := by
  simp only [integrateBody]
  rcases hsk : seekPrev lo none pts with ⟨prev, rest⟩
  cases rest with
  | nil => simp [plainStatus]
  | cons p2 rest' =>
    cases prev with
    | none =>
        dsimp only
        rcases hlp : integrateLoop M interp hi rest' p2.x p2.y 0 with ⟨st, t⟩
        have hst := plainStatus_integrateLoop M interp hi rest' p2.x p2.y 0
        rw [hlp] at hst
        cases st <;> simp_all [plainStatus]
    | some p1 =>
      dsimp only
      split_ifs with h h2
      · -- p2.x > lo and p2.x > hi
        rcases hip : ptwXY_interpolatePoint M interp lo p1.x p1.y p2.x p2.y with ⟨st, y⟩
        have hst := plainStatus_interpolatePoint M interp lo p1.x p1.y p2.x p2.y
        rw [hip] at hst
        cases st
        · dsimp only
          rcases hip2 : ptwXY_interpolatePoint M interp hi p1.x p1.y p2.x p2.y with ⟨st2, rm⟩
          have hst2 := plainStatus_interpolatePoint M interp hi p1.x p1.y p2.x p2.y
          rw [hip2] at hst2
          cases st2
          · dsimp only; exact plainStatus_f_integrate M interp lo y hi rm
          all_goals simp_all [plainStatus]
        all_goals simp_all [plainStatus]
      · -- p2.x > lo and p2.x ≤ hi
        rcases hip : ptwXY_interpolatePoint M interp lo p1.x p1.y p2.x p2.y with ⟨st, y⟩
        have hst := plainStatus_interpolatePoint M interp lo p1.x p1.y p2.x p2.y
        rw [hip] at hst
        cases st
        · dsimp only
          rcases hfi : ptwXY_f_integrate M interp lo y p2.x p2.y with ⟨st2, v⟩
          have hst2 := plainStatus_f_integrate M interp lo y p2.x p2.y
          rw [hfi] at hst2
          cases st2
          · dsimp only
            rcases hlp : integrateLoop M interp hi rest' p2.x p2.y v with ⟨st3, t⟩
            have hst3 := plainStatus_integrateLoop M interp hi rest' p2.x p2.y v
            rw [hlp] at hst3
            cases st3 <;> simp_all [plainStatus]
          all_goals simp_all [plainStatus]
        all_goals simp_all [plainStatus]
      · -- p2.x ≤ lo
        rcases hlp : integrateLoop M interp hi rest' p2.x p2.y 0 with ⟨st, t⟩
        have hst := plainStatus_integrateLoop M interp hi rest' p2.x p2.y 0
        rw [hlp] at hst
        cases st <;> simp_all [plainStatus]

/-- The record update a routine performs on its input function (storage
coalescing) is the identity on the logical state. -/
theorem coalesce_state (f : PtwXYPoints) :
    ({ f with points := ptwXY_simpleCoalescePoints f.points } : PtwXYPoints) = f := rfl

theorem ptwXY_integrate_status (M : MathFns) (f : PtwXYPoints) (a b : ℚ) :
    (ptwXY_integrate M f a b).1 = .badSelf ∨ plainStatus (ptwXY_integrate M f a b).1 := by
  simp only [ptwXY_integrate]
  split_ifs
  · left; rfl
  · right; right; right; rfl
  · right; left; rfl
  all_goals (right; exact plainStatus_integrateBody M _ _ _ _ _)

theorem ptwXY_integrate_post (M : MathFns) (f : PtwXYPoints) (a b : ℚ) :
    (ptwXY_integrate M f a b).2.2 = f := by
  simp only [ptwXY_integrate]
  split_ifs <;> rfl

theorem ptwXY_integrateDomain_status (M : MathFns) (f : PtwXYPoints) :
    (ptwXY_integrateDomain M f).1 = .badSelf ∨ plainStatus (ptwXY_integrateDomain M f).1 := by
  simp only [ptwXY_integrateDomain]
  split_ifs with h1 h2
  · left; rfl
  · exact ptwXY_integrate_status M f _ _
  · right; left; rfl

theorem ptwXY_integrateDomain_post (M : MathFns) (f : PtwXYPoints) :
    (ptwXY_integrateDomain M f).2.2 = f := by
  simp only [ptwXY_integrateDomain]
  split_ifs with h1 h2
  · rfl
  · exact ptwXY_integrate_post M f _ _
  · rfl

theorem ptwXY_integrateDomain_ne_badNorm (M : MathFns) (f : PtwXYPoints) :
    (ptwXY_integrateDomain M f).1 ≠ .badNorm := by
  rcases ptwXY_integrateDomain_status M f with h | h | h | h <;> rw [h] <;> simp

theorem plainStatus_weightXLoop (M : MathFns) (interp : ptwXY_interpolation) (hi : ℚ) :
    ∀ (l : List PtwXYPoint) (x1 y1 s : ℚ),
      plainStatus (weightXLoop M interp hi l x1 y1 s).1 := by
  intro l
  induction l with
  | nil => intro x1 y1 s; simp [weightXLoop, plainStatus]
  | cons p ps ih =>
      intro x1 y1 s
      simp only [weightXLoop]
      split_ifs with h h2
      · rcases hip : ptwXY_interpolatePoint M interp hi x1 y1 p.x p.y with ⟨st, y⟩
        have hst := plainStatus_interpolatePoint M interp hi x1 y1 p.x p.y
        rw [hip] at hst
        cases st <;> simp_all [plainStatus]
      · simp [plainStatus]
      · exact ih p.x p.y _

theorem plainStatus_weightSqrtLoop (M : MathFns) (interp : ptwXY_interpolation) (hi : ℚ) :
    ∀ (l : List PtwXYPoint) (x1 y1 sq s : ℚ),
      plainStatus (weightSqrtLoop M interp hi l x1 y1 sq s).1 := by
  intro l
  induction l with
  | nil => intro x1 y1 sq s; simp [weightSqrtLoop, plainStatus]
  | cons p ps ih =>
      intro x1 y1 sq s
      simp only [weightSqrtLoop]
      split_ifs with h h2
      · rcases hip : ptwXY_interpolatePoint M interp hi x1 y1 p.x p.y with ⟨st, y⟩
        have hst := plainStatus_interpolatePoint M interp hi x1 y1 p.x p.y
        rw [hip] at hst
        cases st <;> simp_all [plainStatus]
      · simp [plainStatus]
      · exact ih p.x p.y _ _

theorem ptwXY_integrateWithWeight_x_post (M : MathFns) (f : PtwXYPoints) (a b : ℚ) :
    (ptwXY_integrateWithWeight_x M f a b).2.2 = f := by
  simp only [ptwXY_integrateWithWeight_x]
  split_ifs <;> rfl

theorem ptwXY_integrateWithWeight_sqrt_x_post (M : MathFns) (f : PtwXYPoints) (a b : ℚ) :
    (ptwXY_integrateWithWeight_sqrt_x M f a b).2.2 = f := by
  simp only [ptwXY_integrateWithWeight_sqrt_x]
  split_ifs <;> rfl

theorem ptwXY_runningIntegral_post (M : MathFns) (f : PtwXYPoints) :
    (ptwXY_runningIntegral M f).2 = f := rfl

theorem ptwXY_integrateWithFunction_post (quad : QuadPrimitive) (f : PtwXYPoints)
    (a b : ℚ) (degree recLim : ℤ) (tol vIn : ℚ) :
    (ptwXY_integrateWithFunction quad f a b degree recLim tol vIn).2.2 = f := by
  simp only [ptwXY_integrateWithFunction]
  split_ifs <;> try rfl
  all_goals (split <;> rfl)

theorem ptwXY_groupOneFunction_post (M : MathFns) (f : PtwXYPoints) (bg : PtwXPoints)
    (nt : ptwXY_group_normType) (norm : Option PtwXPoints) :
    (ptwXY_groupOneFunction M f bg nt norm).2 = f := by
  simp only [ptwXY_groupOneFunction]
  split_ifs <;> (try rfl) <;> (repeat' split) <;> rfl

theorem ptwXY_groupTwoFunctions_post (M : MathFns) (f1 f2 : PtwXYPoints) (bg : PtwXPoints)
    (nt : ptwXY_group_normType) (norm : Option PtwXPoints) :
    (ptwXY_groupTwoFunctions M f1 f2 bg nt norm).2 = (f1, f2) := by
  simp only [ptwXY_groupTwoFunctions]
  split_ifs <;> (try rfl) <;> (repeat' split) <;> rfl

theorem ptwXY_groupThreeFunctions_post (M : MathFns) (f1 f2 f3 : PtwXYPoints)
    (bg : PtwXPoints) (nt : ptwXY_group_normType) (norm : Option PtwXPoints) :
    (ptwXY_groupThreeFunctions M f1 f2 f3 bg nt norm).2 = (f1, f2, f3) := by
  simp only [ptwXY_groupThreeFunctions]
  split_ifs <;> (try rfl) <;> (repeat' split) <;> rfl

theorem getD_tail (l : List ℚ) (i : ℕ) (d : ℚ) :
    l.tail.getD i d = l.getD (i + 1) d := by
  cases l <;> simp [List.getD]

theorem normPass_divByZero (c : ℚ) :
    ∀ (ss : List ℚ) (bb : List (ℚ × ℚ)) (nn : List ℚ),
      (∃ i, ss.getD i 0 ≠ 0 ∧ nn.getD i 1 = 0) →
      normPass .norm c ss bb nn = .error .divByZero := by
  intro ss
  induction ss with
  | nil =>
      rintro bb nn ⟨i, hs, _⟩
      simp [List.getD] at hs
  | cons s ss' ih =>
      rintro bb nn ⟨i, hs, hn⟩
      simp only [normPass]
      cases i with
      | zero =>
          have hs0 : s ≠ 0 := by simpa [List.getD] using hs
          have hn0 : nn.head?.getD 1 = 0 := by
            cases nn <;> simp_all [List.getD]
          simp [hs0, hn0]
      | succ j =>
          have hs' : ss'.getD j 0 ≠ 0 := by
            simpa [List.getD] using hs
          have hn' : nn.tail.getD j 1 = 0 := by
            rw [getD_tail]; exact hn
          have hrec := ih bb.tail nn.tail ⟨j, hs', hn'⟩
          rw [hrec]
          split_ifs with h1 h2 <;> simp

theorem plainStatus_weightXBody (M : MathFns) (interp : ptwXY_interpolation)
    (pts : List PtwXYPoint) (lo hi sgn : ℚ) :
    plainStatus (weightXBody M interp pts lo hi sgn).1 := by
  have finish : ∀ r : NfuStatus × ℚ, plainStatus r.1 →
      plainStatus (match r with
        | (.Okay, s) => (NfuStatus.Okay, sgn * s)
        | (st, _) => (st, (0 : ℚ))).1 := by
    rintro ⟨st, s⟩ hst
    cases st <;> simp_all [plainStatus]
  simp only [weightXBody]
  rcases hsk : seekPrev lo none pts with ⟨prev, rest⟩
  cases rest with
  | nil => simp [plainStatus]
  | cons p2 rest' =>
    cases prev with
    | none => exact finish _ (plainStatus_weightXLoop M interp hi rest' p2.x p2.y 0)
    | some p1 =>
      dsimp only
      split_ifs with h
      · rcases hip : ptwXY_interpolatePoint M interp lo p1.x p1.y p2.x p2.y with ⟨st, y⟩
        have hst := plainStatus_interpolatePoint M interp lo p1.x p1.y p2.x p2.y
        rw [hip] at hst
        cases st
        · exact finish _ (plainStatus_weightXLoop M interp hi (p2 :: rest') lo y 0)
        all_goals simp_all [plainStatus]
      · exact finish _ (plainStatus_weightXLoop M interp hi rest' p2.x p2.y 0)

theorem plainStatus_weightSqrtBody (M : MathFns) (interp : ptwXY_interpolation)
    (pts : List PtwXYPoint) (lo hi sgn : ℚ) :
    plainStatus (weightSqrtBody M interp pts lo hi sgn).1 := by
  have finish : ∀ r : NfuStatus × ℚ, plainStatus r.1 →
      plainStatus (match r with
        | (.Okay, s) => (NfuStatus.Okay, 2/15 * sgn * s)
        | (st, _) => (st, (0 : ℚ))).1 := by
    rintro ⟨st, s⟩ hst
    cases st <;> simp_all [plainStatus]
  simp only [weightSqrtBody]
  rcases hsk : seekPrev lo none pts with ⟨prev, rest⟩
  cases rest with
  | nil => simp [plainStatus]
  | cons p2 rest' =>
    cases prev with
    | none => exact finish _ (plainStatus_weightSqrtLoop M interp hi rest' p2.x p2.y _ 0)
    | some p1 =>
      dsimp only
      split_ifs with h
      · rcases hip : ptwXY_interpolatePoint M interp lo p1.x p1.y p2.x p2.y with ⟨st, y⟩
        have hst := plainStatus_interpolatePoint M interp lo p1.x p1.y p2.x p2.y
        rw [hip] at hst
        cases st
        · exact finish _ (plainStatus_weightSqrtLoop M interp hi (p2 :: rest') lo y _ 0)
        all_goals simp_all [plainStatus]
      · exact finish _ (plainStatus_weightSqrtLoop M interp hi rest' p2.x p2.y _ 0)

/-- C1: for the linLin function with points (2,2),(4,4),(6,2),(8,6) and
Okay status, `ptwXY_integrate` returns status Okay with value 20 on
bounds (2,8), 17.5 on (3,8), 15 on (2,7), 9.5 on (2,5), 2.5 on (2,3) and
12.5 on (3,7). -/
theorem claim_C1_integrate_values :
    ptwXY_integrate M0 fourPointLinLin 2 8 = (.Okay, 20, fourPointLinLin) ∧
    ptwXY_integrate M0 fourPointLinLin 3 8 = (.Okay, 35/2, fourPointLinLin) ∧
    ptwXY_integrate M0 fourPointLinLin 2 7 = (.Okay, 15, fourPointLinLin) ∧
    ptwXY_integrate M0 fourPointLinLin 2 5 = (.Okay, 19/2, fourPointLinLin) ∧
    ptwXY_integrate M0 fourPointLinLin 2 3 = (.Okay, 5/2, fourPointLinLin) ∧
    ptwXY_integrate M0 fourPointLinLin 3 7 = (.Okay, 25/2, fourPointLinLin) := by
  refine ⟨?_, ?_, ?_, ?_, ?_, ?_⟩ <;>
    norm_num [ptwXY_integrate, integrateBody, integrateLoop, seekPrev, ptwXY_f_integrate,
      ptwXY_interpolatePoint, ptwXY_simpleCoalescePoints, fourPointLinLin, M0] <;>
    (try simp) <;> (try norm_num)

/-- C2 (code bug): `ptwXY_integrate` drops the `*value *= _sign` step on
the early-return path where both bounds fall inside the same bracketing
segment, so with points (2,2),(4,4),(6,2),(8,6) the integrals over
(2.5,3.5) and over the swapped bounds (3.5,2.5) are both `+3` instead of
being exact negations of each other. -/
theorem claim_C2_sign_drop :
    ptwXY_integrate M0 fourPointLinLin (5/2) (7/2) = (.Okay, 3, fourPointLinLin) ∧
    ptwXY_integrate M0 fourPointLinLin (7/2) (5/2) = (.Okay, 3, fourPointLinLin) ∧
    (3 : ℚ) ≠ -3 := by
  refine ⟨?_, ?_, by norm_num⟩ <;>
    norm_num [ptwXY_integrate, integrateBody, integrateLoop, seekPrev, ptwXY_f_integrate,
      ptwXY_interpolatePoint, ptwXY_simpleCoalescePoints, fourPointLinLin, M0] <;>
    (try simp) <;> (try norm_num)

/-- C10: with points (2,2),(4,4),(6,2),(8,6) and bounds 0 < 1 below the
domain's first abscissa 2, `ptwXY_integrate` returns Okay with the
nonzero value -1.5, the first segment extrapolated down to `domainMax`. -/
theorem claim_C10_below_domain :
    (ptwXY_integrate M0 fourPointLinLin 0 1).1 = .Okay ∧
    (ptwXY_integrate M0 fourPointLinLin 0 1).2.1 = -(3/2) ∧
    (-(3/2) : ℚ) ≠ 0 ∧ (0 : ℚ) < 1 ∧
    (1 : ℚ) < (fourPointLinLin.points.headD ⟨0, 0⟩).x ∧
    (ptwXY_integrate M0 fourPointLinLin 0 1).2.1 =
      (ptwXY_f_integrate M0 .linLin 2 2 1
        (ptwXY_interpolatePoint M0 .linLin 1 2 2 4 4).2).2 := by
  refine ⟨?_, ?_, by norm_num, by norm_num, ?_, ?_⟩ <;>
    norm_num [ptwXY_integrate, integrateBody, integrateLoop, seekPrev, ptwXY_f_integrate,
      ptwXY_interpolatePoint, ptwXY_simpleCoalescePoints, fourPointLinLin, M0] <;>
    (try simp) <;> (try norm_num)

/-- C6 counterexample: the running integral of the four-point linLin data
is [0, 6, 12, 20], not [0, 6, 12, 17] as the claim states. -/
theorem claim_C6_counterexample :
    (ptwXY_runningIntegral M0 fourPointLinLin).1 = .ok [0, 6, 12, 20] ∧
    ([0, 6, 12, 20] : List ℚ) ≠ [0, 6, 12, 17] := by
  refine ⟨?_, by norm_num⟩
  norm_num [ptwXY_runningIntegral, runningLoop, ptwXY_f_integrate,
    ptwXY_simpleCoalescePoints, fourPointLinLin, M0] <;> (try simp) <;> (try norm_num)

/-- C6 (amended): for the linLin function with points
(2,2),(4,4),(6,2),(8,6), `ptwXY_runningIntegral` returns a sequence of
length 4 whose cumulative values at the knot points are [0, 6, 12, 20]. -/
theorem claim_C6_running_values :
    (ptwXY_runningIntegral M0 fourPointLinLin).1 = .ok [0, 6, 12, 20] ∧
    ([0, 6, 12, 20] : List ℚ).length = 4 := by
  refine ⟨?_, by norm_num⟩
  norm_num [ptwXY_runningIntegral, runningLoop, ptwXY_f_integrate,
    ptwXY_simpleCoalescePoints, fourPointLinLin, M0] <;> (try simp) <;> (try norm_num)

/-- C5 (code bug): on every degenerate early return of
`ptwXY_integrateWithFunction` (equal bounds, fewer than two points, or a
requested range outside the function's domain) the routine returns Okay
but never writes the output value, so the caller's previous contents
(here 7, which is not 0) remain. -/
theorem claim_C5_value_unwritten :
    (∀ (quad : QuadPrimitive) (d r : ℤ) (t vIn : ℚ),
       ptwXY_integrateWithFunction quad fTwoPoint 1 1 d r t vIn = (.Okay, vIn, fTwoPoint) ∧
       ptwXY_integrateWithFunction quad fOnePoint 0 1 d r t vIn = (.Okay, vIn, fOnePoint) ∧
       ptwXY_integrateWithFunction quad fTwoPoint 9 10 d r t vIn = (.Okay, vIn, fTwoPoint)) ∧
    ptwXY_integrateWithFunction quadZero fTwoPoint 1 1 2 10 (1/1000) 7 =
      (.Okay, 7, fTwoPoint) ∧
    (7 : ℚ) ≠ 0 := by
  refine ⟨fun quad d r t vIn => ⟨?_, ?_, ?_⟩, ?_, by norm_num⟩ <;>
    norm_num [ptwXY_integrateWithFunction, ptwXY_simpleCoalescePoints,
      fTwoPoint, fOnePoint] <;> (try simp) <;> (try norm_num)

/-- C3: `ptwXY_normalize` fails with badNorm exactly when the
full-domain integral computes successfully to exactly zero; in that
failure case the function is left unchanged, and on success every `y` is
divided by the full-domain integral with every `x` unchanged. -/
theorem claim_C3_normalize (M : MathFns) (f : PtwXYPoints) :
    ((ptwXY_normalize M f).1 = .badNorm ↔
       (ptwXY_integrateDomain M f).1 = .Okay ∧ (ptwXY_integrateDomain M f).2.1 = 0) ∧
    ((ptwXY_normalize M f).1 = .badNorm → (ptwXY_normalize M f).2 = f) ∧
    ((ptwXY_normalize M f).1 = .Okay →
       (ptwXY_normalize M f).2.points =
         f.points.map (fun p => ⟨p.x, p.y / (ptwXY_integrateDomain M f).2.1⟩)) := by
  have hpost := ptwXY_integrateDomain_post M f
  have hnb := ptwXY_integrateDomain_ne_badNorm M f
  simp only [ptwXY_normalize]
  split_ifs with h1 h2
  · refine ⟨⟨fun hh => absurd hh hnb, fun hh => absurd hh.1 h1⟩,
      fun hh => absurd hh hnb, fun hh => absurd hh h1⟩
  · push_neg at h1
    exact ⟨⟨fun _ => ⟨h1, h2⟩, fun _ => rfl⟩, fun _ => hpost, fun hh => by simp at hh⟩
  · push_neg at h1
    refine ⟨⟨fun hh => by simp at hh, fun hh => absurd hh.2 h2⟩,
      fun hh => by simp at hh, fun _ => by rw [hpost]⟩

/-- C3 witness: a function whose full-domain integral is exactly zero is
rejected by `ptwXY_normalize` with badNorm. -/
theorem claim_C3_witness : (ptwXY_normalize M0 fZeroNorm).1 = .badNorm :=
  (claim_C3_normalize M0 fZeroNorm).1.mpr (by
    constructor <;>
      norm_num [ptwXY_integrateDomain, ptwXY_integrate, integrateBody, integrateLoop,
        seekPrev, ptwXY_f_integrate, ptwXY_interpolatePoint, ptwXY_simpleCoalescePoints,
        fZeroNorm, M0] <;> (try simp) <;> (try norm_num))

/-- C4: `ptwXY_f_integrate` fails with badIntegrationInput exactly for a
logLin law with a non-positive `y`, a linLog law with a non-positive `x`,
or a logLog law with any non-positive coordinate; it fails with the
other-interpolation error exactly for the `other` law; and it always
succeeds for linLin and flat. -/
theorem claim_C4_f_integrate_status (M : MathFns) (interp : ptwXY_interpolation)
    (x1 y1 x2 y2 : ℚ) :
    ((ptwXY_f_integrate M interp x1 y1 x2 y2).1 = .badIntegrationInput ↔
       (interp = .logLin ∧ (y1 ≤ 0 ∨ y2 ≤ 0)) ∨
       (interp = .linLog ∧ (x1 ≤ 0 ∨ x2 ≤ 0)) ∨
       (interp = .logLog ∧ (x1 ≤ 0 ∨ y1 ≤ 0 ∨ x2 ≤ 0 ∨ y2 ≤ 0))) ∧
    ((ptwXY_f_integrate M interp x1 y1 x2 y2).1 = .otherInterpolation ↔ interp = .other) ∧
    ((interp = .linLin ∨ interp = .flat) →
       (ptwXY_f_integrate M interp x1 y1 x2 y2).1 = .Okay) := by
  cases interp <;>
    simp only [ptwXY_f_integrate] <;> (try split_ifs with h) <;> simp_all <;> tauto

/-- C4 witness: concrete instances of each arm: a non-positive `y` under
logLin fails with badIntegrationInput, the `other` law fails with the
other-interpolation error, and linLin succeeds. -/
theorem claim_C4_witness :
    (ptwXY_f_integrate M0 .logLin 0 0 1 1).1 = .badIntegrationInput ∧
    (ptwXY_f_integrate M0 .other 0 1 2 3).1 = .otherInterpolation ∧
    (ptwXY_f_integrate M0 .linLin 0 1 2 3).1 = .Okay :=
  ⟨(claim_C4_f_integrate_status M0 .logLin 0 0 1 1).1.mpr
      (Or.inl ⟨rfl, Or.inl (by norm_num)⟩),
   (claim_C4_f_integrate_status M0 .other 0 1 2 3).2.1.mpr rfl,
   (claim_C4_f_integrate_status M0 .linLin 0 1 2 3).2.2 (Or.inl rfl)⟩

/-- C7 counterexample: an input function whose status already carries an
error and whose law is logLog (not a supported law) makes
`ptwXY_integrateWithWeight_x` fail with badSelf, not with
unsupportedInterpolation, so the claimed equivalence over every input
function fails. -/
theorem claim_C7_counterexample :
    (ptwXY_integrateWithWeight_x M0 fBadStatus 0 1).1 = .badSelf ∧
    (ptwXY_integrateWithWeight_x M0 fBadStatus 0 1).1 ≠ .unsupportedInterpolation ∧
    ¬(fBadStatus.interpolation = .linLin ∨ fBadStatus.interpolation = .logLin ∨
      fBadStatus.interpolation = .flat) := by
  refine ⟨?_, ?_, by simp [fBadStatus]⟩ <;>
    norm_num [ptwXY_integrateWithWeight_x, fBadStatus] <;> (try simp) <;> (try norm_num)

/-- C7 (amended): for every input function with Okay status,
`ptwXY_integrateWithWeight_x` fails with unsupportedInterpolation exactly
when the law is not one of linLin, logLin, flat, and
`ptwXY_integrateWithWeight_sqrt_x` fails with unsupportedInterpolation
exactly when the law is not one of linLin, flat; in particular both
reject logLog and linLog. -/
theorem claim_C7_unsupported (M : MathFns) (f : PtwXYPoints) (a b : ℚ)
    (hok : f.status = .Okay) :
    ((ptwXY_integrateWithWeight_x M f a b).1 = .unsupportedInterpolation ↔
       ¬(f.interpolation = .linLin ∨ f.interpolation = .logLin ∨
         f.interpolation = .flat)) ∧
    ((ptwXY_integrateWithWeight_sqrt_x M f a b).1 = .unsupportedInterpolation ↔
       ¬(f.interpolation = .linLin ∨ f.interpolation = .flat)) := by
  constructor
  · by_cases hm : f.interpolation = .linLin ∨ f.interpolation = .logLin ∨
        f.interpolation = .flat
    · simp only [ptwXY_integrateWithWeight_x, hok]
      rw [if_neg (by simp), if_neg (not_not_intro hm)]
      split_ifs with hlen hba
      · simp [hm]
      · dsimp only
        have hb := plainStatus_weightXBody M f.interpolation
          (ptwXY_simpleCoalescePoints f.points) b a (-1)
        rcases hb with hb | hb | hb <;> rw [hb] <;> simp [hm]
      · dsimp only
        have hb := plainStatus_weightXBody M f.interpolation
          (ptwXY_simpleCoalescePoints f.points) a b 1
        rcases hb with hb | hb | hb <;> rw [hb] <;> simp [hm]
    · simp only [ptwXY_integrateWithWeight_x, hok]
      rw [if_neg (by simp), if_pos hm]
      simp [hm]
  · by_cases hm : f.interpolation = .linLin ∨ f.interpolation = .flat
    · simp only [ptwXY_integrateWithWeight_sqrt_x, hok]
      rw [if_neg (by simp), if_neg (not_not_intro hm)]
      split_ifs with hlen hba
      · simp [hm]
      · dsimp only
        have hb := plainStatus_weightSqrtBody M f.interpolation
          (ptwXY_simpleCoalescePoints f.points) b a (-1)
        rcases hb with hb | hb | hb <;> rw [hb] <;> simp [hm]
      · dsimp only
        have hb := plainStatus_weightSqrtBody M f.interpolation
          (ptwXY_simpleCoalescePoints f.points) a b 1
        rcases hb with hb | hb | hb <;> rw [hb] <;> simp [hm]
    · simp only [ptwXY_integrateWithWeight_sqrt_x, hok]
      rw [if_neg (by simp), if_pos hm]
      simp [hm]

/-- C7 witness: an Okay-status logLog function is rejected by the
x-weighted integrator and an Okay-status linLog function by the
√x-weighted integrator, both with unsupportedInterpolation. -/
theorem claim_C7_witness :
    (ptwXY_integrateWithWeight_x M0 fLogLogOkay 0 1).1 = .unsupportedInterpolation ∧
    (ptwXY_integrateWithWeight_sqrt_x M0 fLinLogOkay 0 1).1 = .unsupportedInterpolation :=
  ⟨(claim_C7_unsupported M0 fLogLogOkay 0 1 rfl).1.mpr (by simp [fLogLogOkay]),
   (claim_C7_unsupported M0 fLinLogOkay 0 1 rfl).2.mpr (by simp [fLinLogOkay])⟩

/-- C8 counterexample: with norm vector [1, 0] (entry 1 exactly zero) and
a function that vanishes over the second bin, `ptwXY_groupOneFunction`
in norm mode succeeds and returns the vector [1, 0] instead of failing
with divByZero. -/
theorem claim_C8_counterexample :
    (ptwXY_groupOneFunction M0 fUnit bg012 .norm (some norm10)).1 = .ok [1, 0] ∧
    norm10.points.getD 1 1 = 0 := by
  refine ⟨?_, by simp [norm10]⟩
  norm_num [ptwXY_groupOneFunction, groupOnePrepared, ptwXY_intersectionWith_ptwX,
    ptwXY_simpleCoalescePoints, evalAt, ptwXY_interpolatePoint, sortQ, insertSorted,
    dedupAdj, binSweep1, binInner1, normPass, binBounds, fUnit, bg012, norm10, M0,
    List.cons_ne_nil] <;> (try simp) <;> (try norm_num)

/-- C8 (amended): in norm-mode group integration, whenever some bin's raw
(pre-normalization) accumulated sum is nonzero while its norm entry is
exactly zero, the routine fails with divByZero and returns no result
vector; this holds for `ptwXY_groupOneFunction`, `ptwXY_groupTwoFunctions`
and `ptwXY_groupThreeFunctions`. -/
theorem claim_C8_divByZero :
    (∀ (M : MathFns) (f : PtwXYPoints) (bg nv : PtwXPoints) (p0 : PtwXYPoint)
       (rest : List PtwXYPoint),
       bg.status = .Okay → f.interpolation ≠ .other → nv.status = .Okay →
       (nv.points.length : ℤ) = (bg.points.length : ℤ) - 1 →
       (groupOnePrepared M f bg.points).points = p0 :: rest →
       (∃ i, (binSweep1 ((groupOnePrepared M f bg.points).interpolation = .flat)
           bg.points.tail rest p0.x p0.y).getD i 0 ≠ 0 ∧ nv.points.getD i 1 = 0) →
       (ptwXY_groupOneFunction M f bg .norm (some nv)).1 = .error .divByZero) ∧
    (∀ (M : MathFns) (f1 f2 : PtwXYPoints) (bg nv : PtwXPoints)
       (fg : PtwXYPoints × PtwXYPoints) (z0 : PtwXYPoint × PtwXYPoint)
       (zrest : List (PtwXYPoint × PtwXYPoint)),
       bg.status = .Okay → f1.interpolation ≠ .other → f2.interpolation ≠ .other →
       nv.status = .Okay →
       (nv.points.length : ℤ) = (bg.points.length : ℤ) - 1 →
       groupTwoPrepared M f1 f2 bg.points = .ok (some fg) →
       fg.1.points.zip fg.2.points = z0 :: zrest →
       (∃ i, (binSweep2 (fg.1.interpolation = .flat) (fg.2.interpolation = .flat)
           bg.points.tail zrest z0.1.x z0.1.y z0.2.y).getD i 0 ≠ 0 ∧
         nv.points.getD i 1 = 0) →
       (ptwXY_groupTwoFunctions M f1 f2 bg .norm (some nv)).1 = .error .divByZero) ∧
    (∀ (M : MathFns) (f1 f2 f3 : PtwXYPoints) (bg nv : PtwXPoints)
       (fgh : PtwXYPoints × PtwXYPoints × PtwXYPoints)
       (z0 : PtwXYPoint × PtwXYPoint × PtwXYPoint)
       (zrest : List (PtwXYPoint × PtwXYPoint × PtwXYPoint)),
       bg.status = .Okay → f1.interpolation ≠ .other → f2.interpolation ≠ .other →
       f3.interpolation ≠ .other → nv.status = .Okay →
       (nv.points.length : ℤ) = (bg.points.length : ℤ) - 1 →
       groupThreePrepared M f1 f2 f3 bg.points = .ok (some fgh) →
       fgh.1.points.zip (fgh.2.1.points.zip fgh.2.2.points) = z0 :: zrest →
       (∃ i, (binSweep3 (fgh.1.interpolation = .flat) (fgh.2.1.interpolation = .flat)
           (fgh.2.2.interpolation = .flat) bg.points.tail zrest z0.1.x z0.1.y
           z0.2.1.y z0.2.2.y).getD i 0 ≠ 0 ∧ nv.points.getD i 1 = 0) →
       (ptwXY_groupThreeFunctions M f1 f2 f3 bg .norm (some nv)).1 = .error .divByZero) := by
  refine ⟨?_, ?_, ?_⟩
  · intro M f bg nv p0 rest hbg hfo hnv hlen hprep hbad
    simp only [groupOnePrepared] at hprep hbad
    have hnorm := normPass_divByZero (1/2) _ (binBounds bg.points) nv.points hbad
    simp only [one_div] at hnorm
    simp [ptwXY_groupOneFunction, groupOnePrepared, hbg, hnv, hfo, hlen, hprep, hnorm]
  · intro M f1 f2 bg nv fg z0 zrest hbg h1o h2o hnv hlen hprep hz hbad
    have hnorm := normPass_divByZero (1/6) _ (binBounds bg.points) nv.points hbad
    simp only [one_div] at hnorm
    simp [ptwXY_groupTwoFunctions, hbg, h1o, h2o, hnv, hlen, hprep, hz, hnorm]
  · intro M f1 f2 f3 bg nv fgh z0 zrest hbg h1o h2o h3o hnv hlen hprep hz hbad
    have hnorm := normPass_divByZero (1/12) _ (binBounds bg.points) nv.points hbad
    simp only [one_div] at hnorm
    simp [ptwXY_groupThreeFunctions, hbg, h1o, h2o, h3o, hnv, hlen, hprep, hz, hnorm]

/-- C8 witness: concrete norm-mode runs of all three group integrators in
which the single bin's raw sum is nonzero while the norm entry is zero,
each failing with divByZero. -/
theorem claim_C8_witness :
    (ptwXY_groupOneFunction M0 fUnit bg01 .norm (some normZ)).1 = .error .divByZero ∧
    (ptwXY_groupTwoFunctions M0 fUnit fUnit bg01 .norm (some normZ)).1 =
      .error .divByZero ∧
    (ptwXY_groupThreeFunctions M0 fUnit fUnit fUnit bg01 .norm (some normZ)).1 =
      .error .divByZero :=
  ⟨claim_C8_divByZero.1 M0 fUnit bg01 normZ ⟨0, 1⟩ [⟨1, 1⟩] rfl (by simp [fUnit]) rfl
      (by simp [normZ, bg01])
      (by norm_num [groupOnePrepared, ptwXY_intersectionWith_ptwX,
        ptwXY_simpleCoalescePoints, evalAt, ptwXY_interpolatePoint, sortQ, insertSorted,
        dedupAdj, fUnit, bg01, M0, List.cons_ne_nil] <;> (try simp) <;> (try norm_num))
      ⟨0, by
        norm_num [groupOnePrepared, ptwXY_intersectionWith_ptwX,
          ptwXY_simpleCoalescePoints, evalAt, ptwXY_interpolatePoint, sortQ, insertSorted,
          dedupAdj, binSweep1, binInner1, fUnit, bg01, normZ, M0, List.cons_ne_nil] <;>
          (try simp) <;> (try norm_num)⟩,
   claim_C8_divByZero.2.1 M0 fUnit fUnit bg01 normZ (fUnit, fUnit) (⟨0, 1⟩, ⟨0, 1⟩)
      [(⟨1, 1⟩, ⟨1, 1⟩)] rfl (by simp [fUnit]) (by simp [fUnit]) rfl
      (by simp [normZ, bg01])
      (by norm_num [groupTwoPrepared, ptwXY_intersectionWith_ptwX,
        ptwXY_tweakDomainsToMutualify, ptwXY_unionFill, ptwXY_simpleCoalescePoints,
        evalAt, ptwXY_interpolatePoint, sortQ, insertSorted, dedupAdj, fUnit, bg01, M0,
        List.cons_ne_nil] <;> (try simp) <;> (try norm_num))
      (by simp [fUnit])
      ⟨0, by
        norm_num [binSweep2, binInner2, fUnit, bg01, normZ] <;>
          (try simp) <;> (try norm_num)⟩,
   claim_C8_divByZero.2.2 M0 fUnit fUnit fUnit bg01 normZ (fUnit, fUnit, fUnit)
      (⟨0, 1⟩, ⟨0, 1⟩, ⟨0, 1⟩) [(⟨1, 1⟩, ⟨1, 1⟩, ⟨1, 1⟩)] rfl (by simp [fUnit])
      (by simp [fUnit]) (by simp [fUnit]) rfl (by simp [normZ, bg01])
      (by norm_num [groupThreePrepared, ptwXY_intersectionWith_ptwX,
        ptwXY_tweakDomainsToMutualify, ptwXY_unionFill, ptwXY_simpleCoalescePoints,
        evalAt, ptwXY_interpolatePoint, sortQ, insertSorted, dedupAdj, fUnit, bg01, M0,
        List.cons_ne_nil] <;> (try simp) <;> (try norm_num))
      (by simp [fUnit])
      ⟨0, by
        norm_num [binSweep3, binInner3, fUnit, bg01, normZ] <;>
          (try simp) <;> (try norm_num)⟩⟩

/-- C9: every integration routine other than `ptwXY_normalize` leaves the
input functions' point sequences (and whole state) unchanged: the only
write the routines perform on their inputs is the storage coalescing,
which is the identity on the logical point sequence. -/
theorem claim_C9_frame (M : MathFns) (quad : QuadPrimitive) (f f2 f3 : PtwXYPoints)
    (bg : PtwXPoints) (nt : ptwXY_group_normType) (norm : Option PtwXPoints)
    (a b : ℚ) (degree recLim : ℤ) (tol vIn : ℚ) :
    (ptwXY_integrate M f a b).2.2 = f ∧
    (ptwXY_integrateWithWeight_x M f a b).2.2 = f ∧
    (ptwXY_integrateWithWeight_sqrt_x M f a b).2.2 = f ∧
    (ptwXY_runningIntegral M f).2 = f ∧
    (ptwXY_integrateWithFunction quad f a b degree recLim tol vIn).2.2 = f ∧
    (ptwXY_groupOneFunction M f bg nt norm).2 = f ∧
    (ptwXY_groupTwoFunctions M f f2 bg nt norm).2 = (f, f2) ∧
    (ptwXY_groupThreeFunctions M f f2 f3 bg nt norm).2 = (f, f2, f3) :=
  ⟨ptwXY_integrate_post M f a b,
   ptwXY_integrateWithWeight_x_post M f a b,
   ptwXY_integrateWithWeight_sqrt_x_post M f a b,
   ptwXY_runningIntegral_post M f,
   ptwXY_integrateWithFunction_post quad f a b degree recLim tol vIn,
   ptwXY_groupOneFunction_post M f bg nt norm,
   ptwXY_groupTwoFunctions_post M f f2 bg nt norm,
   ptwXY_groupThreeFunctions_post M f f2 f3 bg nt norm⟩
